import Mathlib

/-!
Verification development for the analyze-code-security-scc action.

The definitions below are a shallow embedding of the TypeScript sources
(src/utils.ts, src/main.ts, src/accessor.ts, src/commons/constants.ts,
src/commons/http_config.ts).  JavaScript Map objects are modelled as
insertion-ordered association lists whose set operation replaces the value
of an existing key in place, exactly as Map.set does.  Thrown exceptions
are modelled with Except.  String splitting, trimming and upper-casing are
re-implemented structurally over the character list so that closed terms
evaluate inside the kernel; they agree with the JavaScript operations on
the ASCII inputs the program manipulates.
-/

namespace SCC

/-- Severity enum from src/accessor.ts, in declaration order. -/
inductive Severity
  | severityUnspecified
  | critical
  | high
  | medium
  | low
deriving DecidableEq, Repr

/-- String value carried by each member of the Severity enum. -/
def Severity.str : Severity → String
  | .severityUnspecified => "SEVERITY_UNSPECIFIED"
  | .critical => "CRITICAL"
  | .high => "HIGH"
  | .medium => "MEDIUM"
  | .low => "LOW"

/-- Object.values(Severity): the enum members in declaration order. -/
def Severity.values : List Severity :=
  [.severityUnspecified, .critical, .high, .medium, .low]

/-- Operator enum from src/input_configuration.ts. -/
inductive Operator
  | OR
  | AND
deriving DecidableEq, Repr

/-- String value carried by each member of the Operator enum. -/
def Operator.str : Operator → String
  | .OR => "OR"
  | .AND => "AND"

/-- FailureCriteria from src/input_configuration.ts.  The JS Map is an
insertion-ordered association list; threshold values are JS numbers,
modelled as rationals. -/
structure FailureCriteria where
  violationsThresholdBySeverity : List (Severity × ℚ)
  operator : Operator
deriving DecidableEq, Repr

/-- Violation from src/accessor.ts restricted to the fields the core logic
reads.  assetId and policyId are optional so that both an absent field and
an empty string can be represented (JS treats both as falsy); severity is
optional exactly as in the source type. -/
structure Violation where
  assetId : Option String := none
  policyId : Option String := none
  severity : Option Severity := none
deriving DecidableEq, Repr

/-- Map.set of a JS Map: replace the value of an existing key in place,
otherwise append the new entry at the end. -/
def jsMapSet {κ ν : Type} [DecidableEq κ] : List (κ × ν) → κ → ν → List (κ × ν)
  | [], k, v => [(k, v)]
  | (k', v') :: rest, k, v =>
    if k' = k then (k, v) :: rest else (k', v') :: jsMapSet rest k v

/-- Map.get of a JS Map: value of the first (and only) entry with the key. -/
def jsMapGet {κ ν : Type} [DecidableEq κ] : List (κ × ν) → κ → Option ν
  | [], _ => none
  | (k', v') :: rest, k => if k' = k then some v' else jsMapGet rest k

/-- Map.has of a JS Map. -/
def jsMapHas {κ ν : Type} [DecidableEq κ] (m : List (κ × ν)) (k : κ) : Bool :=
  (jsMapGet m k).isSome

/-- String.prototype.split with a one-character separator, on the character
list.  Structural so that closed calls reduce in the kernel. -/
def splitOnCharAux (sep : Char) : List Char → List Char → List (List Char)
  | [], acc => [acc.reverse]
  | c :: cs, acc =>
    if c = sep then acc.reverse :: splitOnCharAux sep cs []
    else splitOnCharAux sep cs (c :: acc)

/-- JS split of a string on a one-character separator; both separators used
by the source (comma and colon) are single characters. -/
def jsSplit (s : String) (sep : Char) : List String :=
  (splitOnCharAux sep s.data []).map (fun cs => ⟨cs⟩)

/-- String.prototype.trim, on the whitespace characters Lean recognises
(the inputs of interest only involve ASCII spaces). -/
def jsTrim (s : String) : String :=
  ⟨((s.data.dropWhile Char.isWhitespace).reverse.dropWhile Char.isWhitespace).reverse⟩

/-- String.prototype.toUpperCase restricted to ASCII. -/
def jsToUpper (s : String) : String :=
  ⟨s.data.map Char.toUpper⟩

/-- DEFAULT_FAILURE_CRITERIA from src/commons/constants.ts. -/
def DEFAULT_FAILURE_CRITERIA : String := "Critical:1,High:1,Medium:1,Low:1,Operator:or"

/-- isEmptyString from src/utils.ts: str == null or the empty string. -/
def isEmptyString : Option String → Bool
  | none => true
  | some s => s = ""

/-- Value of a list of decimal digit characters. -/
def digitsToNat (cs : List Char) : Nat :=
  cs.foldl (fun acc c => acc * 10 + (c.toNat - '0'.toNat)) 0

/-- Model of the JS unary plus (Number conversion) applied by
validateAndReturnNumber, for the decimal literal forms: optional sign,
integer digits, optional fractional part.  The empty string converts to 0
as in JS (that case is unreachable here because the caller rejects the
empty string first).  Exotic literal forms (hex, exponent) are not
modelled; none of the properties below depends on them. -/
def jsToNumber (s : String) : Option ℚ :=
  match s.data with
  | [] => some 0
  | cs =>
    let signBody : Bool × List Char :=
      match cs with
      | '-' :: r => (true, r)
      | '+' :: r => (false, r)
      | r => (false, r)
    let intPart := signBody.2.takeWhile Char.isDigit
    let rest := signBody.2.dropWhile Char.isDigit
    let mk : Nat → Nat → Option ℚ := fun num den =>
      some (mkRat (if signBody.1 then -(num : Int) else (num : Int)) den)
    match rest with
    | [] => if intPart.isEmpty then none else mk (digitsToNat intPart) 1
    | '.' :: frac =>
      if frac.all Char.isDigit && !(intPart.isEmpty && frac.isEmpty) then
        mk (digitsToNat intPart * 10 ^ frac.length + digitsToNat frac) (10 ^ frac.length)
      else none
    | _ => none

/-- validateAndReturnNumber from src/utils.ts. -/
def validateAndReturnNumber (number : String) : Except String ℚ :=
  if number = "" then Except.error "Number is empty"
  else
    match jsToNumber number with
    | none => Except.error ("Invalid number: " ++ number)
    | some n => Except.ok n

/-- Loop body of constructKeyValueMapFromString from src/utils.ts: one
comma-separated piece must split on colons into exactly two tokens, whose
trimmed upper-cased forms are inserted into the map. -/
def constructStep (m : List (String × String)) (criteria : String) :
    Except String (List (String × String)) :=
  match jsSplit criteria ':' with
  | [key, value] =>
    Except.ok (jsMapSet m (jsToUpper (jsTrim key)) (jsToUpper (jsTrim value)))
  | _ => Except.error "string format invalid"

/-- constructKeyValueMapFromString from src/utils.ts: split on commas, then
run the loop body over the pieces. -/
def constructKeyValueMapFromString (str : String) : Except String (List (String × String)) :=
  (jsSplit str ',').foldlM constructStep []

/-- isValidOperatorKey from src/utils.ts. -/
def isValidOperatorKey (key : String) : Bool :=
  key = "OPERATOR"

/-- extractOperatorValue from src/utils.ts. -/
def extractOperatorValue (value : String) : Except String Operator :=
  if value = Operator.AND.str then Except.ok Operator.AND
  else if value = Operator.OR.str then Except.ok Operator.OR
  else Except.error ("operator value: " ++ value ++ " not valid")

/-- extractSeverityKey from src/utils.ts: scan Object.values(Severity) and
remember the member whose string equals the key, never admitting the
SEVERITY_UNSPECIFIED member. -/
def extractSeverityKey (key errMsg : String) : Except String Severity :=
  let severityKey := Severity.values.foldl
    (fun acc severity =>
      if severity.str = key ∧ key ≠ Severity.severityUnspecified.str then some severity
      else acc)
    none
  match severityKey with
  | none => Except.error errMsg
  | some s => Except.ok s

/-- One step of the forEach body of validateAndExtractFailureCriteriaFromMap
from src/utils.ts, acting on the accumulated operator and threshold map. -/
def extractStep (st : Option Operator × List (Severity × ℚ)) (kv : String × String) :
    Except String (Option Operator × List (Severity × ℚ)) :=
  let key := kv.1
  let value := kv.2
  if isValidOperatorKey key then
    match st.1 with
    | some _ => Except.error "multiple operators found."
    | none =>
      match extractOperatorValue value with
      | Except.error e => Except.error e
      | Except.ok op => Except.ok (some op, st.2)
  else
    match extractSeverityKey key ("invalid key: " ++ key ++ ", value: " ++ value ++ " pair found.") with
    | Except.error e => Except.error e
    | Except.ok severity =>
      if jsMapHas st.2 severity then
        Except.error ("multiple severities of type " ++ key ++ " found.")
      else
        match validateAndReturnNumber value with
        | Except.error msg => Except.error ("invalid severity count, " ++ msg)
        | Except.ok valueNum => Except.ok (st.1, jsMapSet st.2 severity valueNum)

/-- validateAndExtractFailureCriteriaFromMap from src/utils.ts. -/
def validateAndExtractFailureCriteriaFromMap (keyValueMap : List (String × String)) :
    Except String FailureCriteria :=
  match keyValueMap.foldlM extractStep (none, []) with
  | Except.error e => Except.error e
  | Except.ok st =>
    match st.1 with
    | none => Except.error "no operator found."
    | some operator =>
      if st.2.length = 0 then Except.error "no severity mentioned in operator."
      else Except.ok ⟨st.2, operator⟩

/-- validateAndParseFailureCriteria from src/utils.ts: empty or absent
input is replaced by DEFAULT_FAILURE_CRITERIA, then the key/value map is
built and validated; any failure is wrapped with the fixed prefix. -/
def validateAndParseFailureCriteria (failure_criteria : Option String) :
    Except String FailureCriteria :=
  let str :=
    if isEmptyString failure_criteria then DEFAULT_FAILURE_CRITERIA
    else failure_criteria.getD DEFAULT_FAILURE_CRITERIA
  match constructKeyValueMapFromString str with
  | Except.error msg => Except.error ("failure_criteria validation failed : " ++ msg)
  | Except.ok keyValueMap =>
    match validateAndExtractFailureCriteriaFromMap keyValueMap with
    | Except.error msg => Except.error ("failure_criteria validation failed : " ++ msg)
    | Except.ok fc => Except.ok fc

/-- Loop body of getViolationCountBySeverity from src/utils.ts: bump the
count of the violation severity, a missing severity counting as
SEVERITY_UNSPECIFIED and a missing count as zero. -/
def countStep (m : List (Severity × Nat)) (violation : Violation) : List (Severity × Nat) :=
  let severity := violation.severity.getD Severity.severityUnspecified
  match jsMapGet m severity with
  | some currentCount => jsMapSet m severity (currentCount + 1)
  | none => jsMapSet m severity 1

/-- getViolationCountBySeverity from src/utils.ts: fold the violations into
a JS Map from severity to count. -/
def getViolationCountBySeverity (violations : List Violation) : List (Severity × Nat) :=
  violations.foldl countStep []

/-- Boolean pushed by one iteration of getFailureCriteriasViolated from
src/utils.ts: actualCount >= threshold, the actual count defaulting to
zero when the severity is absent from the counts. -/
def criteriaMet (violationsCountBySeverity : List (Severity × Nat)) (e : Severity × ℚ) : Bool :=
  let actualViolationCount : Nat := (jsMapGet violationsCountBySeverity e.1).getD 0
  decide ((e.2 : ℚ) ≤ (actualViolationCount : ℚ))

/-- getFailureCriteriasViolated from src/utils.ts: for each threshold entry
in insertion order, push the boolean actualCount >= threshold. -/
def getFailureCriteriasViolated (violationsCountBySeverity : List (Severity × Nat))
    (violationsThresholdBySeverity : List (Severity × ℚ)) : List Bool :=
  violationsThresholdBySeverity.foldl
    (fun violatedCriteria e =>
      violatedCriteria ++ [criteriaMet violationsCountBySeverity e])
    []

/-- isFailureCriteriaSatisfied from src/main.ts, as a function of the
failure criteria carried by the input configuration and of the violation
list (the only parts of the configuration the source function reads). -/
def isFailureCriteriaSatisfied (failure_criteria : FailureCriteria)
    (violations : List Violation) : Bool :=
  let violationsCountBySeverity := getViolationCountBySeverity violations
  let failureCriteriasViolated := getFailureCriteriasViolated violationsCountBySeverity
    failure_criteria.violationsThresholdBySeverity
  match failure_criteria.operator with
  | .AND => failureCriteriasViolated.foldl (fun acc currentValue => acc && currentValue) true
  | .OR => failureCriteriasViolated.foldl (fun acc currentValue => acc || currentValue) false

/-- Decidable equality for Except results, used to evaluate parser outcomes
on concrete inputs. -/
instance instDecidableEqExcept {ε α : Type} [DecidableEq ε] [DecidableEq α] :
    DecidableEq (Except ε α) :=
  fun a b =>
    match a, b with
    | .ok x, .ok y =>
      if h : x = y then isTrue (by rw [h]) else isFalse (by intro hc; cases hc; exact h rfl)
    | .error x, .error y =>
      if h : x = y then isTrue (by rw [h]) else isFalse (by intro hc; cases hc; exact h rfl)
    | .ok _, .error _ => isFalse (by intro hc; cases hc)
    | .error _, .ok _ => isFalse (by intro hc; cases hc)

/-- IACValidationException from src/exception.ts: an error carrying an HTTP
style status code and a message. -/
structure IACValidationException where
  statusCode : Nat
  message : String
deriving DecidableEq, Repr

/-- Error payload of an Operation, from src/accessor.ts. -/
structure OperationError where
  code : Option Nat := none
  message : Option String := none
deriving DecidableEq, Repr

/-- IACValidationReport from src/accessor.ts. -/
structure IACValidationReport where
  violations : Option (List Violation) := none
deriving DecidableEq, Repr

/-- Response payload of an Operation, from src/accessor.ts (named Response
there). -/
structure OpResponse where
  name : String := ""
  iacValidationReport : Option IACValidationReport := none
deriving DecidableEq, Repr

/-- Operation from src/accessor.ts: the long-running-operation handle. -/
structure Operation where
  name : String := ""
  done : Bool := false
  error : Option OperationError := none
  response : Option OpResponse := none
deriving DecidableEq, Repr

/-- JS template-literal interpolation of a possibly absent string: an
undefined value prints as the text undefined. -/
def jsShowOptString : Option String → String
  | none => "undefined"
  | some s => s

/-- JS falsiness of a possibly absent string: undefined and the empty
string are falsy. -/
def jsFalsyOptStr : Option String → Bool
  | none => true
  | some s => s = ""

/-- RETRIABLE_ERROR_CODES from src/commons/http_config.ts. -/
def RETRIABLE_ERROR_CODES : List Nat := [408, 429, 500, 502, 503, 504]

/-- SCAN_FILE_MAX_SIZE_BYTES from src/commons/constants.ts. -/
def SCAN_FILE_MAX_SIZE_BYTES : Nat := 1000000

/-- shouldRetry from src/accessor.ts, with the wall-clock reading passed in
explicitly: retry while the current time is strictly before
scanStartTime + scanTimeOut. -/
def shouldRetry (scanStartTime scanTimeOut currentTime : Nat) : Bool :=
  currentTime < scanStartTime + scanTimeOut

/-- JS expression statusCode || 500: an absent or zero status code becomes
500. -/
def effectiveStatusCode : Option Nat → Nat
  | none => 500
  | some 0 => 500
  | some s => s

/-- One observable outcome of a single HTTP exchange issued by the request
loop of src/accessor.ts: reply carries the raw status code, the response
body text and the value the body parses to; fail models a throw from the
transport or from body handling, which the catch block wraps with status
500. -/
inductive HttpEvent (α : Type)
  | reply (statusCode : Option Nat) (bodyText : String) (body : α)
  | fail (msg : String)

/-- Fuelled run of the private request method of src/accessor.ts.  The
environment supplies the wall-clock reading taken by shouldRetry at each
loop head (clock i) and the outcome of the HTTP exchange of that iteration
(events i); i is the index of the next unconsumed reading and the result
carries the index that follows the run, so that nested loops thread one
stream.  A retriable status code (after the JS defaulting statusCode ||
500) backs off and retries; any other status of at least 400 raises the
status with the body embedded in the message, re-wrapped by the catch with
the fixed errorMsg prefix; otherwise the parsed body is returned.  Once a
loop head sees the deadline reached, the loop exits with the Operation
timed out error of status 500.  none means the fuel ran out before the run
was decided. -/
def requestRun {α : Type} (scanStartTime scanTimeOut : Nat) (clock : Nat → Nat)
    (events : Nat → HttpEvent α) (errorMsg : String) :
    Nat → Nat → Option (Nat × Except IACValidationException α)
  | _, 0 => none
  | i, fuel + 1 =>
    if shouldRetry scanStartTime scanTimeOut (clock i) then
      match events i with
      | .fail msg => some (i + 1, Except.error ⟨500, errorMsg ++ " " ++ msg⟩)
      | .reply statusCode? bodyText body =>
        let statusCode := effectiveStatusCode statusCode?
        if RETRIABLE_ERROR_CODES.contains statusCode then
          requestRun scanStartTime scanTimeOut clock events errorMsg (i + 1) fuel
        else if 400 ≤ statusCode then
          some (i + 1, Except.error ⟨statusCode,
            errorMsg ++ " " ++ ("statusCode : (" ++ Nat.repr statusCode ++ "), message : " ++ bodyText)⟩)
        else some (i + 1, Except.ok body)
    else some (i + 1, Except.error ⟨500, "Operation timed out"⟩)

/-- Fuelled run of pollOperation from src/accessor.ts.  Each poll iteration
first checks the deadline, then issues one getOperation call (a full
request-loop run over the same clock and event streams); a fetched
operation that is truthy and done is returned, anything else sleeps and
polls again; a deadline seen at the poll loop head raises Operation timed
out with status 500. -/
def pollRun (scanStartTime scanTimeOut : Nat) (clock : Nat → Nat)
    (events : Nat → HttpEvent (Option Operation)) :
    Nat → Nat → Option (Nat × Except IACValidationException Operation)
  | _, 0 => none
  | i, fuel + 1 =>
    if shouldRetry scanStartTime scanTimeOut (clock i) then
      match requestRun scanStartTime scanTimeOut clock events
          "encountered error while performing scan operation" (i + 1) fuel with
      | none => none
      | some (i', Except.error e) => some (i', Except.error e)
      | some (i', Except.ok resp?) =>
        match resp? with
        | some resp =>
          if resp.done then some (i', Except.ok resp)
          else pollRun scanStartTime scanTimeOut clock events i' fuel
        | none => pollRun scanStartTime scanTimeOut clock events i' fuel
    else some (i + 1, Except.error ⟨500, "Operation timed out"⟩)

/-- getViolations from src/accessor.ts. -/
def getViolations (operation : Operation) : Except IACValidationException (List Violation) :=
  match operation.response with
  | none => Except.error ⟨500, "[Internal Error]  Polling Validation Service Endpoint Timed Out"⟩
  | some response =>
    match response.iacValidationReport with
    | none => Except.error ⟨500,
        "[Internal Error] Validation Endpoint Returned Response with invalid validationReport"⟩
    | some validationReport =>
      match validationReport.violations with
      | none => Except.ok []
      | some violations => Except.ok violations

/-- Body of the violations.forEach check of validatePollOperationResponse
from src/accessor.ts: the first violation whose assetId or policyId is
falsy raises the internal 500 error naming both key attributes. -/
def checkViolations : List Violation → Except IACValidationException Unit
  | [] => Except.ok ()
  | violation :: rest =>
    if jsFalsyOptStr violation.assetId || jsFalsyOptStr violation.policyId then
      Except.error ⟨500,
        "[Internal Error] Validation Service Endpoint Returned\n        invalid violations with one or more missing key Attributes, policyID : "
        ++ violation.policyId.getD "" ++ ", assetId : " ++ violation.assetId.getD ""⟩
    else checkViolations rest

/-- validatePollOperationResponse from src/accessor.ts: a present error
field raises its code (defaulting to 500) with the error message
interpolated; otherwise the report violations are extracted and each is
checked for non-falsy key attributes. -/
def validatePollOperationResponse (operation : Operation) :
    Except IACValidationException Unit :=
  match operation.error with
  | some error =>
    Except.error ⟨error.code.getD 500,
      "Returned Error Response with following error:" ++ jsShowOptString error.message⟩
  | none =>
    match getViolations operation with
    | Except.error e => Except.error e
    | Except.ok violations => checkViolations violations

/-- validateIACValidationRequest from src/accessor.ts, as a function of the
byte length of the encoded plan (base64 decoding reproduces the original
bytes). -/
def validateIACValidationRequest (tfPlanByteLength : Nat) :
    Except IACValidationException Unit :=
  if SCAN_FILE_MAX_SIZE_BYTES < tfPlanByteLength then
    Except.error ⟨400,
      "[Invalid Request] Violations : Found Scan File with size : "
      ++ Nat.repr tfPlanByteLength ++ " Bytes,\n       Max limit : "
      ++ Nat.repr SCAN_FILE_MAX_SIZE_BYTES ++ " Bytes"⟩
  else Except.ok ()

/-- processIACValidationResponse from src/accessor.ts: collect the report
violations, normalizing an absent severity to SEVERITY_UNSPECIFIED. -/
def processIACValidationResponse (operation : Operation) : List Violation :=
  match operation.response with
  | none => []
  | some response =>
    match response.iacValidationReport with
    | none => []
    | some report =>
      match report.violations with
      | none => []
      | some violations =>
        violations.map (fun violation =>
          if violation.severity.isNone then
            { violation with severity := some Severity.severityUnspecified }
          else violation)

/-- Catch block of scan from src/accessor.ts: every error raised inside the
body is an IACValidationException in this model, so its status code is
preserved and its message is wrapped with the fixed prefix. -/
def scanWrap :
    Except IACValidationException (List Violation) →
    Except IACValidationException (List Violation)
  | Except.ok v => Except.ok v
  | Except.error e =>
    Except.error ⟨e.statusCode, "Failed to scan file due to following error: " ++ e.message⟩

/-- Fuelled run of scan from src/accessor.ts: size validation, the submit
request loop, the poll loop starting at the clock index where submit
stopped, result validation and normalization, all under the single catch
that wraps errors.  none means the fuel ran out before the run was
decided. -/
def scanRun (scanStartTime scanTimeOut : Nat) (clock : Nat → Nat)
    (submitEvents : Nat → HttpEvent Operation)
    (pollEvents : Nat → HttpEvent (Option Operation))
    (iacByteLength : Nat) (fuel : Nat) :
    Option (Except IACValidationException (List Violation)) :=
  match validateIACValidationRequest iacByteLength with
  | Except.error e => some (scanWrap (Except.error e))
  | Except.ok _ =>
    match requestRun scanStartTime scanTimeOut clock submitEvents
        "encountered error while requesting scan" 0 fuel with
    | none => none
    | some (_, Except.error e) => some (scanWrap (Except.error e))
    | some (i', Except.ok _) =>
      match pollRun scanStartTime scanTimeOut clock pollEvents i' fuel with
      | none => none
      | some (_, Except.error e) => some (scanWrap (Except.error e))
      | some (_, Except.ok op) =>
        match validatePollOperationResponse op with
        | Except.error e => some (scanWrap (Except.error e))
        | Except.ok _ => some (Except.ok (processIACValidationResponse op))

/-- Substring test: some suffix of s has pat as a prefix. -/
def strContains (s pat : String) : Bool :=
  s.data.tails.any (fun suffix => pat.data.isPrefixOf suffix)

/-- Operation returned by the submit call in the concrete runs below. -/
def submitOpW : Operation := { name := "operations/op" }

/-- Done operation carrying an operation error, for the concrete runs. -/
def errorOpW : Operation :=
  { name := "operations/op"
    done := true
    error := some ⟨some 409, some "conflict"⟩ }

/-- Done operation whose report holds a violation with a blank assetId. -/
def blankIdOpW : Operation :=
  { name := "operations/op"
    done := true
    response := some ⟨"", some ⟨some [⟨none, some "p1", some Severity.high⟩]⟩⟩ }

/-- Severity a violation is counted under: its severity field, a missing
one counting as SEVERITY_UNSPECIFIED. -/
def severityOf (v : Violation) : Severity :=
  v.severity.getD Severity.severityUnspecified

/-- Aggregated violation count of one severity, stated directly from the
claims: the number of violations of that severity. -/
def specSeverityCount (violations : List Violation) (s : Severity) : Nat :=
  (violations.filter (fun v => decide (severityOf v = s))).length

/-- Per-severity criterion, stated directly from the claims: the
aggregated count reaches the threshold. -/
def specThresholdMet (violations : List Violation) (e : Severity × ℚ) : Bool :=
  decide ((e.2 : ℚ) ≤ (specSeverityCount violations e.1 : ℚ))

/-- Normal form of one token as the parser sees it: trimmed, then
upper-cased. -/
def tokenNormalized (t : String) : String := jsToUpper (jsTrim t)

/-- Token matrix of an expression: the comma-separated pieces, each split
on colons, each token normalized.  The parser reads the expression only
through this matrix. -/
def normalizedTokens (e : String) : List (List String) :=
  (jsSplit e ',').map (fun criteria => (jsSplit criteria ':').map tokenNormalized)

/-- Invariant carried by the accumulating state of
validateAndExtractFailureCriteriaFromMap: no threshold entry is keyed by
SEVERITY_UNSPECIFIED and the severity keys are pairwise distinct. -/
def ThresholdInv (st : Option Operator × List (Severity × ℚ)) : Prop :=
  (∀ e ∈ st.2, e.1 ≠ Severity.severityUnspecified) ∧ (st.2.map Prod.fst).Nodup

theorem jsMapGet_set {κ ν : Type} [DecidableEq κ] (m : List (κ × ν)) (k k' : κ) (v : ν) :
    jsMapGet (jsMapSet m k v) k' = if k = k' then some v else jsMapGet m k' := by
  induction m with
  | nil => simp [jsMapSet, jsMapGet]
  | cons e rest ih =>
    obtain ⟨a, b⟩ := e
    by_cases hak : a = k
    · subst hak
      by_cases h : a = k' <;> simp [jsMapSet, jsMapGet, h]
    · by_cases hak' : a = k'
      · subst hak'
        have hka : ¬(k = a) := fun hh => hak hh.symm
        simp [jsMapSet, jsMapGet, hak, hka]
      · by_cases h : k = k'
        · subst h
          simp [jsMapSet, jsMapGet, hak, hak', ih]
        · simp [jsMapSet, jsMapGet, hak, hak', h, ih]

theorem jsMapGet_eq_none_iff {κ ν : Type} [DecidableEq κ] (m : List (κ × ν)) (k : κ) :
    jsMapGet m k = none ↔ k ∉ m.map Prod.fst := by
  induction m with
  | nil => simp [jsMapGet]
  | cons e rest ih =>
    obtain ⟨a, b⟩ := e
    by_cases h : a = k
    · subst h; simp [jsMapGet]
    · have h' : ¬(k = a) := fun hh => h hh.symm
      simp [jsMapGet, h, h', ih]

theorem jsMapSet_eq_append {κ ν : Type} [DecidableEq κ] (m : List (κ × ν)) (k : κ) (v : ν)
    (h : jsMapGet m k = none) :
    jsMapSet m k v = m ++ [(k, v)] := by
  induction m with
  | nil => simp [jsMapSet]
  | cons e rest ih =>
    obtain ⟨a, b⟩ := e
    by_cases hak : a = k
    · simp [jsMapGet, hak] at h
    · simp [jsMapGet, hak] at h
      simp [jsMapSet, hak, ih h]

theorem sum_jsMapSet_of_get_some {κ : Type} [DecidableEq κ]
    (m : List (κ × Nat)) (k : κ) (c w : Nat) (h : jsMapGet m k = some c) :
    ((jsMapSet m k w).map Prod.snd).sum + c = (m.map Prod.snd).sum + w := by
  induction m with
  | nil => simp [jsMapGet] at h
  | cons e rest ih =>
    obtain ⟨a, b⟩ := e
    by_cases hak : a = k
    · subst hak
      simp [jsMapGet] at h
      subst h
      simp [jsMapSet]
      omega
    · simp [jsMapGet, hak] at h
      have := ih h
      simp [jsMapSet, hak]
      omega

theorem specSeverityCount_cons (v : Violation) (rest : List Violation) (s : Severity) :
    specSeverityCount (v :: rest) s =
      (if severityOf v = s then 1 else 0) + specSeverityCount rest s := by
  by_cases h : severityOf v = s <;> simp [specSeverityCount, List.filter_cons, h] <;> omega

theorem countStep_eq (m : List (Severity × Nat)) (v : Violation) :
    countStep m v =
      match jsMapGet m (severityOf v) with
      | some c => jsMapSet m (severityOf v) (c + 1)
      | none => jsMapSet m (severityOf v) 1 := rfl

theorem jsMapGet_countStep (m : List (Severity × Nat)) (v : Violation) (s : Severity) :
    jsMapGet (countStep m v) s =
      if severityOf v = s then some ((jsMapGet m s).getD 0 + 1) else jsMapGet m s := by
  rw [countStep_eq]
  by_cases h : severityOf v = s
  · subst h
    cases hm : jsMapGet m (severityOf v) with
    | none => simp [jsMapGet_set, hm]
    | some c => simp [jsMapGet_set, hm]
  · cases hm : jsMapGet m (severityOf v) with
    | none => simp [jsMapGet_set, hm, h]
    | some c => simp [jsMapGet_set, hm, h]

theorem countFold_getD (violations : List Violation) :
    ∀ (m : List (Severity × Nat)) (s : Severity),
      (jsMapGet (violations.foldl countStep m) s).getD 0 =
        (jsMapGet m s).getD 0 + specSeverityCount violations s := by
  induction violations with
  | nil => intro m s; simp [specSeverityCount]
  | cons v rest ih =>
    intro m s
    rw [List.foldl_cons, ih, jsMapGet_countStep, specSeverityCount_cons]
    by_cases h : severityOf v = s <;> simp [h] <;> omega

theorem countFold_none_iff (violations : List Violation) :
    ∀ (m : List (Severity × Nat)) (s : Severity),
      (jsMapGet (violations.foldl countStep m) s = none ↔
        (jsMapGet m s = none ∧ specSeverityCount violations s = 0)) := by
  induction violations with
  | nil => intro m s; simp [specSeverityCount]
  | cons v rest ih =>
    intro m s
    rw [List.foldl_cons, ih, jsMapGet_countStep, specSeverityCount_cons]
    by_cases h : severityOf v = s <;> simp [h]

theorem countBySeverity_get (violations : List Violation) (s : Severity) :
    jsMapGet (getViolationCountBySeverity violations) s =
      if specSeverityCount violations s = 0 then none
      else some (specSeverityCount violations s) := by
  have h1 := countFold_getD violations [] s
  have h2 := countFold_none_iff violations [] s
  simp only [jsMapGet, Option.getD_none, Nat.zero_add, true_and] at h1 h2
  simp only [getViolationCountBySeverity]
  by_cases h : specSeverityCount violations s = 0
  · simp [h, h2.mpr h]
  · cases hg : jsMapGet (violations.foldl countStep []) s with
    | none => exact absurd (h2.mp hg) h
    | some c =>
      rw [hg] at h1
      simp only [Option.getD_some] at h1
      simp [h, h1]

theorem countFold_sum (violations : List Violation) :
    ∀ m : List (Severity × Nat),
      (((violations.foldl countStep m).map Prod.snd).sum =
        (m.map Prod.snd).sum + violations.length) := by
  induction violations with
  | nil => intro m; simp
  | cons v rest ih =>
    intro m
    rw [List.foldl_cons, ih]
    have hstep : ((countStep m v).map Prod.snd).sum = (m.map Prod.snd).sum + 1 := by
      cases hm : jsMapGet m (severityOf v) with
      | none =>
        simp only [countStep_eq, hm, jsMapSet_eq_append m (severityOf v) 1 hm]
        simp
      | some c =>
        have hsum := sum_jsMapSet_of_get_some m (severityOf v) c (c + 1) hm
        simp only [countStep_eq, hm]
        omega
    simp only [List.length_cons]
    omega

theorem foldl_push_eq_map {α β : Type} (f : α → β) (l : List α) :
    ∀ acc : List β, l.foldl (fun acc x => acc ++ [f x]) acc = acc ++ l.map f := by
  induction l with
  | nil => intro acc; simp
  | cons x xs ih => intro acc; simp [ih]

theorem getFailureCriteriasViolated_eq_map (counts : List (Severity × Nat))
    (thresholds : List (Severity × ℚ)) :
    getFailureCriteriasViolated counts thresholds = thresholds.map (criteriaMet counts) := by
  simp only [getFailureCriteriasViolated]
  rw [foldl_push_eq_map]
  simp

theorem foldl_and_eq_all (l : List Bool) : ∀ b : Bool,
    l.foldl (fun acc c => acc && c) b = (b && l.all (fun x => x)) := by
  induction l with
  | nil => intro b; simp
  | cons x xs ih => intro b; simp [ih, Bool.and_assoc]

theorem foldl_or_eq_any (l : List Bool) : ∀ b : Bool,
    l.foldl (fun acc c => acc || c) b = (b || l.any (fun x => x)) := by
  induction l with
  | nil => intro b; simp
  | cons x xs ih => intro b; simp [ih, Bool.or_assoc]

theorem all_map_id {α : Type} (f : α → Bool) (l : List α) :
    (l.map f).all (fun x => x) = l.all f := by
  induction l with
  | nil => rfl
  | cons x xs ih => simp [ih]

theorem any_map_id {α : Type} (f : α → Bool) (l : List α) :
    (l.map f).any (fun x => x) = l.any f := by
  induction l with
  | nil => rfl
  | cons x xs ih => simp [ih]

theorem criteriaMet_counts_eq (violations : List Violation) (e : Severity × ℚ) :
    criteriaMet (getViolationCountBySeverity violations) e = specThresholdMet violations e := by
  have h1 := countFold_getD violations [] e.1
  simp only [jsMapGet, Option.getD_none, Nat.zero_add] at h1
  simp [criteriaMet, specThresholdMet, getViolationCountBySeverity, h1]

theorem isSatisfied_eq_spec (crit : FailureCriteria) (violations : List Violation) :
    isFailureCriteriaSatisfied crit violations =
      match crit.operator with
      | Operator.AND => crit.violationsThresholdBySeverity.all (specThresholdMet violations)
      | Operator.OR => crit.violationsThresholdBySeverity.any (specThresholdMet violations) := by
  have hfun : criteriaMet (getViolationCountBySeverity violations) = specThresholdMet violations := by
    funext e
    exact criteriaMet_counts_eq violations e
  simp only [isFailureCriteriaSatisfied, getFailureCriteriasViolated_eq_map, hfun]
  cases hop : crit.operator with
  | AND => rw [foldl_and_eq_all, all_map_id]; simp
  | OR => rw [foldl_or_eq_any, any_map_id]; simp

theorem except_bind_ok {ε α β : Type} (a : α) (f : α → Except ε β) :
    (Except.ok a >>= f : Except ε β) = f a := rfl

theorem except_bind_error {ε α β : Type} (e : ε) (f : α → Except ε β) :
    (Except.error e >>= f : Except ε β) = Except.error e := rfl

theorem extractSeverityKey_ok (key errMsg : String) (s : Severity)
    (h : extractSeverityKey key errMsg = Except.ok s) :
    s.str = key ∧ key ≠ Severity.severityUnspecified.str := by
  simp only [extractSeverityKey, Severity.values, List.foldl_cons, List.foldl_nil] at h
  split_ifs at h with h1 h2 h3 h4 h5 <;> simp_all
  exact h5.2 h5.1.symm

theorem extractSeverityKey_ne_unspecified (key errMsg : String) (s : Severity)
    (h : extractSeverityKey key errMsg = Except.ok s) :
    s ≠ Severity.severityUnspecified := by
  obtain ⟨h1, h2⟩ := extractSeverityKey_ok key errMsg s h
  intro hs
  subst hs
  exact h2 h1.symm

theorem extractStep_inv (st : Option Operator × List (Severity × ℚ)) (kv : String × String)
    (st' : Option Operator × List (Severity × ℚ))
    (hinv : ThresholdInv st) (h : extractStep st kv = Except.ok st') :
    ThresholdInv st' := by
  simp only [extractStep] at h
  split at h
  · split at h
    · cases h
    · split at h
      · cases h
      · cases h
        exact ⟨hinv.1, hinv.2⟩
  · split at h
    · cases h
    · rename_i sev hsev
      split at h
      · cases h
      · rename_i hhas
        split at h
        · cases h
        · rename_i q hq
          cases h
          have hget : jsMapGet st.2 sev = none := by
            cases hg : jsMapGet st.2 sev with
            | none => rfl
            | some c => exact absurd (by rw [jsMapHas, hg]; rfl) hhas
          have happ := jsMapSet_eq_append st.2 sev q hget
          have hmem : sev ∉ st.2.map Prod.fst := (jsMapGet_eq_none_iff st.2 sev).mp hget
          constructor
          · intro e he
            rw [happ] at he
            rcases List.mem_append.mp he with hold | hnew
            · exact hinv.1 e hold
            · simp at hnew
              rw [hnew]
              exact extractSeverityKey_ne_unspecified _ _ _ hsev
          · rw [happ]
            simp only [List.map_append, List.map_cons, List.map_nil]
            rw [List.nodup_append]
            refine ⟨hinv.2, List.nodup_singleton sev, ?_⟩
            intro a ha hb
            simp at hb
            rw [hb] at ha
            exact hmem ha

theorem extract_foldlM_inv :
    ∀ (l : List (String × String)) (st st' : Option Operator × List (Severity × ℚ)),
      ThresholdInv st → l.foldlM extractStep st = Except.ok st' → ThresholdInv st' := by
  intro l
  induction l with
  | nil =>
    intro st st' hinv h
    simp only [List.foldlM_nil] at h
    cases h
    exact hinv
  | cons kv rest ih =>
    intro st st' hinv h
    rw [List.foldlM_cons] at h
    cases hstep : extractStep st kv with
    | error e => rw [hstep, except_bind_error] at h; cases h
    | ok st1 =>
      rw [hstep, except_bind_ok] at h
      exact ih st1 st' (extractStep_inv st kv st1 hinv hstep) h

theorem parse_ok_inv (s? : Option String) (fc : FailureCriteria)
    (h : validateAndParseFailureCriteria s? = Except.ok fc) :
    fc.violationsThresholdBySeverity ≠ []
    ∧ (∀ e ∈ fc.violationsThresholdBySeverity, e.1 ≠ Severity.severityUnspecified)
    ∧ (fc.violationsThresholdBySeverity.map Prod.fst).Nodup := by
  simp only [validateAndParseFailureCriteria] at h
  split at h
  · cases h
  · rename_i keyValueMap hmap
    split at h
    · cases h
    · rename_i fc' hex
      cases h
      simp only [validateAndExtractFailureCriteriaFromMap] at hex
      split at hex
      · cases hex
      · rename_i st hfold
        split at hex
        · cases hex
        · rename_i op hop
          split at hex
          · cases hex
          · rename_i hlen
            cases hex
            have hinv : ThresholdInv st :=
              extract_foldlM_inv keyValueMap (none, []) st ⟨by simp, by simp⟩ hfold
            refine ⟨?_, hinv.1, hinv.2⟩
            intro hnil
            have hnil' : st.2 = [] := hnil
            exact hlen (by rw [hnil']; rfl)

theorem constructStep_congr (m : List (String × String)) (c c' : String)
    (h : (jsSplit c ':').map tokenNormalized = (jsSplit c' ':').map tokenNormalized) :
    constructStep m c = constructStep m c' := by
  rcases hsp : jsSplit c ':' with _ | ⟨a, _ | ⟨b, _ | ⟨d, rest⟩⟩⟩ <;>
    rcases hsp' : jsSplit c' ':' with _ | ⟨a', _ | ⟨b', _ | ⟨d', rest'⟩⟩⟩ <;>
      rw [hsp, hsp'] at h <;>
        simp_all [constructStep, tokenNormalized]

theorem construct_foldlM_congr :
    ∀ (rows rows' : List String) (m : List (String × String)),
      rows.map (fun c => (jsSplit c ':').map tokenNormalized) =
        rows'.map (fun c => (jsSplit c ':').map tokenNormalized) →
      rows.foldlM constructStep m = rows'.foldlM constructStep m := by
  intro rows
  induction rows with
  | nil =>
    intro rows' m h
    cases rows' with
    | nil => rfl
    | cons r rs => simp at h
  | cons r rs ih =>
    intro rows' m h
    cases rows' with
    | nil => simp at h
    | cons r' rs' =>
      simp only [List.map_cons, List.cons.injEq] at h
      rw [List.foldlM_cons, List.foldlM_cons, constructStep_congr m r r' h.1]
      cases hstep : constructStep m r' with
      | error e => rw [except_bind_error, except_bind_error]
      | ok m1 =>
        rw [except_bind_ok, except_bind_ok]
        exact ih rs' m1 h.2

theorem construct_congr (e e' : String)
    (h : normalizedTokens e = normalizedTokens e') :
    constructKeyValueMapFromString e = constructKeyValueMapFromString e' := by
  simp only [normalizedTokens] at h
  exact construct_foldlM_congr (jsSplit e ',') (jsSplit e' ',') [] h

theorem specSeverityCount_filter_unspec (violations : List Violation) (s : Severity)
    (hs : s ≠ Severity.severityUnspecified) :
    specSeverityCount
      (violations.filter (fun v => !decide (severityOf v = Severity.severityUnspecified))) s =
    specSeverityCount violations s := by
  induction violations with
  | nil => rfl
  | cons v rest ih =>
    by_cases hv : severityOf v = Severity.severityUnspecified
    · have hus : ¬(Severity.severityUnspecified = s) := fun hh => hs hh.symm
      simp [List.filter_cons, hv, specSeverityCount_cons, hus, ih]
    · simp [List.filter_cons, hv, specSeverityCount_cons, ih]

theorem all_congr_mem {α : Type} (l : List α) (f g : α → Bool)
    (h : ∀ a ∈ l, f a = g a) : l.all f = l.all g := by
  induction l with
  | nil => rfl
  | cons x xs ih =>
    simp only [List.all_cons]
    rw [h x (List.mem_cons_self x xs), ih (fun a ha => h a (List.mem_cons_of_mem x ha))]

theorem any_congr_mem {α : Type} (l : List α) (f g : α → Bool)
    (h : ∀ a ∈ l, f a = g a) : l.any f = l.any g := by
  induction l with
  | nil => rfl
  | cons x xs ih =>
    simp only [List.any_cons]
    rw [h x (List.mem_cons_self x xs), ih (fun a ha => h a (List.mem_cons_of_mem x ha))]

theorem strContains_infix_iff (s pat : String) :
    strContains s pat = true ↔ pat.data <:+: s.data := by
  simp only [strContains, List.any_eq_true]
  constructor
  · rintro ⟨suffix, hmem, hpre⟩
    exact List.infix_iff_prefix_suffix.mpr
      ⟨suffix, List.isPrefixOf_iff_prefix.mp hpre, (List.mem_tails suffix s.data).mp hmem⟩
  · intro hinf
    obtain ⟨t, hp, hs⟩ := List.infix_iff_prefix_suffix.mp hinf
    exact ⟨t, (List.mem_tails t s.data).mpr hs, List.isPrefixOf_iff_prefix.mpr hp⟩

theorem strContains_append_left (a b pat : String)
    (h : strContains a pat = true) : strContains (a ++ b) pat = true := by
  rw [strContains_infix_iff] at h ⊢
  rw [String.data_append]
  exact h.trans (List.prefix_append a.data b.data).isInfix

theorem strContains_append_right (a b pat : String)
    (h : strContains b pat = true) : strContains (a ++ b) pat = true := by
  rw [strContains_infix_iff] at h ⊢
  rw [String.data_append]
  exact h.trans (List.suffix_append a.data b.data).isInfix

theorem strContains_self (s : String) : strContains s s = true := by
  rw [strContains_infix_iff]

theorem checkViolations_error_of_blank : ∀ (viols : List Violation) (v : Violation),
    v ∈ viols →
    (jsFalsyOptStr v.assetId || jsFalsyOptStr v.policyId) = true →
    ∃ e, checkViolations viols = Except.error e
      ∧ e.statusCode = 500
      ∧ strContains e.message "missing key Attributes" = true
      ∧ strContains e.message "policyID :" = true
      ∧ strContains e.message "assetId :" = true := by
  intro viols
  induction viols with
  | nil => intro v hv; cases hv
  | cons w rest ih =>
    intro v hv hblank
    by_cases hw : (jsFalsyOptStr w.assetId || jsFalsyOptStr w.policyId) = true
    · refine ⟨⟨500,
        "[Internal Error] Validation Service Endpoint Returned\n        invalid violations with one or more missing key Attributes, policyID : "
        ++ w.policyId.getD "" ++ ", assetId : " ++ w.assetId.getD ""⟩,
        by simp [checkViolations, hw], rfl, ?_, ?_, ?_⟩
      · exact strContains_append_left _ _ _ (strContains_append_left _ _ _
          (strContains_append_left _ _ _ (by decide)))
      · exact strContains_append_left _ _ _ (strContains_append_left _ _ _
          (strContains_append_left _ _ _ (by decide)))
      · exact strContains_append_left _ _ _ (strContains_append_right _ _ _ (by decide))
    · rcases List.mem_cons.mp hv with hvw | hvrest
      · exact absurd (hvw ▸ hblank) hw
      · obtain ⟨e, he, h5, hc1, hc2, hc3⟩ := ih v hvrest hblank
        refine ⟨e, ?_, h5, hc1, hc2, hc3⟩
        simp [checkViolations, hw, he]

/-- C1: for every FailureCriteria and every violation list, the evaluator
computes, for each severity present in the threshold map and no other, the
boolean actualCount >= threshold, where actualCount is the aggregated
count of violations of that severity (zero when absent), and combines the
booleans with AND under the AND operator and with OR under the OR
operator; equality with the threshold satisfies the criterion because the
comparison is not strict. -/
theorem evaluator_matches_thresholds (crit : FailureCriteria) (violations : List Violation) :
    isFailureCriteriaSatisfied crit violations =
      match crit.operator with
      | Operator.AND => crit.violationsThresholdBySeverity.all (specThresholdMet violations)
      | Operator.OR => crit.violationsThresholdBySeverity.any (specThresholdMet violations) :=
  isSatisfied_eq_spec crit violations

/-- C2 (observed behavior): an expression repeating the OPERATOR key does
not fail with multiple operators found; the duplicate entries collapse in
the key/value Map, so the parse succeeds with the single surviving
operator. -/
theorem parse_duplicate_operator_returns_ok :
    validateAndParseFailureCriteria (some "Low:1, Operator:OR, Operator:OR") =
      Except.ok ⟨[(Severity.low, 1)], Operator.OR⟩ := by decide

/-- C6: parsing the empty string and parsing an absent input both succeed
and agree with parsing the default expression, producing thresholds
CRITICAL 1, HIGH 1, MEDIUM 1, LOW 1 with operator OR. -/
theorem parse_empty_and_absent_default :
    validateAndParseFailureCriteria (some "") = validateAndParseFailureCriteria none
    ∧ validateAndParseFailureCriteria none =
        validateAndParseFailureCriteria (some "Critical:1,High:1,Medium:1,Low:1,Operator:OR")
    ∧ validateAndParseFailureCriteria none =
        Except.ok ⟨[(Severity.critical, 1), (Severity.high, 1), (Severity.medium, 1),
          (Severity.low, 1)], Operator.OR⟩ :=
  ⟨by decide, by decide, by decide⟩

/-- C7: getViolationCountBySeverity maps each severity to exactly the
number of violations of that severity (a missing severity counting as
SEVERITY_UNSPECIFIED), holds a key exactly for the severities that occur
at least once, and its counts sum to the length of the input list. -/
theorem violation_count_by_severity_correct (violations : List Violation) :
    (∀ s : Severity, jsMapGet (getViolationCountBySeverity violations) s =
        if specSeverityCount violations s = 0 then none
        else some (specSeverityCount violations s))
    ∧ (∀ s : Severity, s ∈ (getViolationCountBySeverity violations).map Prod.fst ↔
        specSeverityCount violations s ≠ 0)
    ∧ ((getViolationCountBySeverity violations).map Prod.snd).sum = violations.length := by
  refine ⟨fun s => countBySeverity_get violations s, fun s => ?_, ?_⟩
  · have hnone : (jsMapGet (getViolationCountBySeverity violations) s = none) ↔
        specSeverityCount violations s = 0 := by
      rw [countBySeverity_get]
      by_cases h : specSeverityCount violations s = 0 <;> simp [h]
    have hkeys := jsMapGet_eq_none_iff (getViolationCountBySeverity violations) s
    constructor
    · intro hmem hcnt
      exact (hkeys.mp (hnone.mpr hcnt)) hmem
    · intro hcnt
      by_contra hmem
      exact hcnt (hnone.mp (hkeys.mpr hmem))
  · have hsum := countFold_sum violations []
    simpa [getViolationCountBySeverity] using hsum

/-- C8: every FailureCriteria returned by a successful
validateAndParseFailureCriteria has a nonempty threshold map, no
SEVERITY_UNSPECIFIED key, pairwise distinct severity keys, and an operator
that is AND or OR. -/
theorem parse_result_invariant (s? : Option String) (fc : FailureCriteria)
    (h : validateAndParseFailureCriteria s? = Except.ok fc) :
    fc.violationsThresholdBySeverity ≠ []
    ∧ (∀ e ∈ fc.violationsThresholdBySeverity, e.1 ≠ Severity.severityUnspecified)
    ∧ (fc.violationsThresholdBySeverity.map Prod.fst).Nodup
    ∧ (fc.operator = Operator.AND ∨ fc.operator = Operator.OR) := by
  obtain ⟨h1, h2, h3⟩ := parse_ok_inv s? fc h
  refine ⟨h1, h2, h3, ?_⟩
  cases hop : fc.operator
  · exact Or.inr rfl
  · exact Or.inl rfl

theorem parse_result_invariant_witness :
    ([(Severity.low, (1 : ℚ))] : List (Severity × ℚ)) ≠ []
    ∧ (∀ e ∈ ([(Severity.low, (1 : ℚ))] : List (Severity × ℚ)),
        e.1 ≠ Severity.severityUnspecified)
    ∧ (([(Severity.low, (1 : ℚ))] : List (Severity × ℚ)).map Prod.fst).Nodup
    ∧ (Operator.OR = Operator.AND ∨ Operator.OR = Operator.OR) :=
  parse_result_invariant (some "Low:1,Operator:OR")
    ⟨[(Severity.low, 1)], Operator.OR⟩ (by decide)

/-- C9: the parser is insensitive to the letter case of keys and values
and to whitespace surrounding them: two expressions with the same
normalized token matrix, and agreeing on being the empty string (which is
replaced by the default before parsing), parse to the same result. -/
theorem parse_case_whitespace_insensitive (e e' : String)
    (hempty : e = "" ↔ e' = "")
    (h : normalizedTokens e = normalizedTokens e') :
    validateAndParseFailureCriteria (some e) = validateAndParseFailureCriteria (some e') := by
  by_cases he : e = ""
  · rw [he, hempty.mp he]
  · have he' : ¬(e' = "") := fun hh => he (hempty.mpr hh)
    simp only [validateAndParseFailureCriteria, isEmptyString, he, he', decide_False,
      Bool.false_eq_true, if_false, Option.getD_some]
    rw [construct_congr e e' h]

theorem parse_case_whitespace_insensitive_witness :
    validateAndParseFailureCriteria (some " low : 1 ,operator: or") =
      validateAndParseFailureCriteria (some "LOW:1,OPERATOR:OR") :=
  parse_case_whitespace_insensitive " low : 1 ,operator: or" "LOW:1,OPERATOR:OR"
    (by decide) (by decide)

/-- C10: violations of severity SEVERITY_UNSPECIFIED never influence the
evaluation: for a FailureCriteria obtained from a successful parse, the
evaluator returns the same boolean on a violation list and on the list
with the UNSPECIFIED-severity violations removed. -/
theorem unspecified_violations_no_influence (s? : Option String) (crit : FailureCriteria)
    (violations : List Violation)
    (h : validateAndParseFailureCriteria s? = Except.ok crit) :
    isFailureCriteriaSatisfied crit violations =
      isFailureCriteriaSatisfied crit
        (violations.filter (fun v => !decide (severityOf v = Severity.severityUnspecified))) := by
  obtain ⟨-, hkeys, -⟩ := parse_ok_inv s? crit h
  rw [isSatisfied_eq_spec, isSatisfied_eq_spec]
  have hpt : ∀ e ∈ crit.violationsThresholdBySeverity,
      specThresholdMet violations e =
        specThresholdMet
          (violations.filter (fun v => !decide (severityOf v = Severity.severityUnspecified))) e := by
    intro e he
    simp only [specThresholdMet]
    rw [specSeverityCount_filter_unspec violations e.1 (hkeys e he)]
  cases hop : crit.operator with
  | AND => exact all_congr_mem _ _ _ hpt
  | OR => exact any_congr_mem _ _ _ hpt

theorem unspecified_violations_no_influence_witness :
    isFailureCriteriaSatisfied ⟨[(Severity.low, 1)], Operator.OR⟩
        [⟨some "a", some "p", some Severity.severityUnspecified⟩] =
      isFailureCriteriaSatisfied ⟨[(Severity.low, 1)], Operator.OR⟩
        ([(⟨some "a", some "p", some Severity.severityUnspecified⟩ : Violation)].filter
          (fun v => !decide (severityOf v = Severity.severityUnspecified))) :=
  unspecified_violations_no_influence (some "Low:1,Operator:OR")
    ⟨[(Severity.low, 1)], Operator.OR⟩
    [⟨some "a", some "p", some Severity.severityUnspecified⟩] (by decide)

/-- C3: the retry loops stop as soon as a loop head observes a wall-clock
reading at or past scanStartTime + scanTimeOut: the request loop exits
with the status 500 Operation timed out error whatever the pending events,
the poll loop does the same, and a scan run whose submit or poll loop
ended that way fails with a ScanError of status 500 whose message contains
Operation timed out. -/
theorem scan_times_out_at_deadline
    (scanStartTime scanTimeOut i fuel iacByteLength : Nat) (clock : Nat → Nat)
    (submitEvents : Nat → HttpEvent Operation)
    (pollEvents : Nat → HttpEvent (Option Operation))
    (hdeadline : scanStartTime + scanTimeOut ≤ clock i) :
    (∀ (α : Type) (events : Nat → HttpEvent α) (errorMsg : String),
        requestRun scanStartTime scanTimeOut clock events errorMsg i (fuel + 1) =
          some (i + 1, Except.error ⟨500, "Operation timed out"⟩))
    ∧ (∀ events' : Nat → HttpEvent (Option Operation),
        pollRun scanStartTime scanTimeOut clock events' i (fuel + 1) =
          some (i + 1, Except.error ⟨500, "Operation timed out"⟩))
    ∧ (iacByteLength ≤ SCAN_FILE_MAX_SIZE_BYTES →
        ((∃ k, requestRun scanStartTime scanTimeOut clock submitEvents
            "encountered error while requesting scan" 0 (fuel + 1) =
            some (k, Except.error ⟨500, "Operation timed out"⟩))
          ∨ (∃ j resp k, requestRun scanStartTime scanTimeOut clock submitEvents
              "encountered error while requesting scan" 0 (fuel + 1) =
              some (j, Except.ok resp)
            ∧ pollRun scanStartTime scanTimeOut clock pollEvents j (fuel + 1) =
              some (k, Except.error ⟨500, "Operation timed out"⟩))) →
        ∃ e, scanRun scanStartTime scanTimeOut clock submitEvents pollEvents
            iacByteLength (fuel + 1) = some (Except.error e)
          ∧ e.statusCode = 500
          ∧ strContains e.message "Operation timed out" = true) := by
  have hsr : shouldRetry scanStartTime scanTimeOut (clock i) = false := by
    simp only [shouldRetry, decide_eq_false_iff_not, Nat.not_lt]
    exact hdeadline
  refine ⟨?_, ?_, ?_⟩
  · intro α events errorMsg
    simp [requestRun, hsr]
  · intro events'
    simp [pollRun, hsr]
  · intro hsize hloops
    have hnl : ¬(SCAN_FILE_MAX_SIZE_BYTES < iacByteLength) := Nat.not_lt.mpr hsize
    rcases hloops with ⟨k, hk⟩ | ⟨j, resp, k, hsub, hpoll⟩
    · refine ⟨⟨500, "Failed to scan file due to following error: " ++ "Operation timed out"⟩,
        ?_, rfl, strContains_append_right _ _ _ (strContains_self _)⟩
      simp [scanRun, validateIACValidationRequest, hnl, hk, scanWrap]
    · refine ⟨⟨500, "Failed to scan file due to following error: " ++ "Operation timed out"⟩,
        ?_, rfl, strContains_append_right _ _ _ (strContains_self _)⟩
      simp [scanRun, validateIACValidationRequest, hnl, hsub, hpoll, scanWrap]

theorem scan_times_out_at_deadline_witness :
    ∃ e, scanRun 0 10 (fun _ => 10) (fun _ => HttpEvent.fail "x")
        (fun _ => HttpEvent.fail "y") 0 1 = some (Except.error e)
      ∧ e.statusCode = 500 ∧ strContains e.message "Operation timed out" = true := by
  have h := scan_times_out_at_deadline 0 10 0 0 0 (fun _ => 10)
    (fun _ => HttpEvent.fail "x") (fun _ => HttpEvent.fail "y") (by decide)
  exact h.2.2 (by decide)
    (Or.inl ⟨1, h.1 Operation (fun _ => HttpEvent.fail "x")
      "encountered error while requesting scan"⟩)

/-- C4: when the poll loop hands back a done operation that carries an
error field, scan fails with a ScanError whose status code is the
operation error code (500 when absent) and whose message contains the
operation error message; result validation is pure, so no further request
is issued after the poll returned. -/
theorem scan_fails_on_operation_error
    (scanStartTime scanTimeOut iacByteLength fuel j k : Nat) (clock : Nat → Nat)
    (submitEvents : Nat → HttpEvent Operation)
    (pollEvents : Nat → HttpEvent (Option Operation))
    (resp op : Operation) (err : OperationError)
    (hsize : iacByteLength ≤ SCAN_FILE_MAX_SIZE_BYTES)
    (hsubmit : requestRun scanStartTime scanTimeOut clock submitEvents
        "encountered error while requesting scan" 0 fuel = some (j, Except.ok resp))
    (hpoll : pollRun scanStartTime scanTimeOut clock pollEvents j fuel =
        some (k, Except.ok op))
    (hdone : op.done = true)
    (herr : op.error = some err) :
    scanRun scanStartTime scanTimeOut clock submitEvents pollEvents iacByteLength fuel =
      some (Except.error ⟨err.code.getD 500,
        "Failed to scan file due to following error: "
        ++ ("Returned Error Response with following error:" ++ jsShowOptString err.message)⟩)
    ∧ strContains
        ("Failed to scan file due to following error: "
          ++ ("Returned Error Response with following error:" ++ jsShowOptString err.message))
        (jsShowOptString err.message) = true := by
  constructor
  · have hnl : ¬(SCAN_FILE_MAX_SIZE_BYTES < iacByteLength) := Nat.not_lt.mpr hsize
    simp [scanRun, validateIACValidationRequest, hnl, hsubmit, hpoll,
      validatePollOperationResponse, herr, scanWrap]
  · exact strContains_append_right _ _ _ (strContains_append_right _ _ _ (strContains_self _))

theorem scan_fails_on_operation_error_witness :
    ∃ e, scanRun 0 10 (fun _ => 0)
        (fun _ => HttpEvent.reply (some 200) "" submitOpW)
        (fun _ => HttpEvent.reply (some 200) "" (some errorOpW)) 0 3 =
        some (Except.error e)
      ∧ e.statusCode = 409
      ∧ strContains e.message "conflict" = true := by
  have h := scan_fails_on_operation_error 0 10 0 3 1 3 (fun _ => 0)
    (fun _ => HttpEvent.reply (some 200) "" submitOpW)
    (fun _ => HttpEvent.reply (some 200) "" (some errorOpW))
    submitOpW errorOpW ⟨some 409, some "conflict"⟩
    (by decide) (by decide) (by decide) rfl rfl
  exact ⟨_, h.1, rfl, h.2⟩

/-- C5: when the polled operation is complete, carries no operation error,
and its validation report holds some violation whose assetId or policyId
is blank, scan fails with a status 500 ScanError whose message names the
missing key attributes, and never returns a violation list. -/
theorem scan_fails_on_blank_violation_ids
    (scanStartTime scanTimeOut iacByteLength fuel j k : Nat) (clock : Nat → Nat)
    (submitEvents : Nat → HttpEvent Operation)
    (pollEvents : Nat → HttpEvent (Option Operation))
    (resp op : Operation) (viols : List Violation) (v : Violation)
    (hsize : iacByteLength ≤ SCAN_FILE_MAX_SIZE_BYTES)
    (hsubmit : requestRun scanStartTime scanTimeOut clock submitEvents
        "encountered error while requesting scan" 0 fuel = some (j, Except.ok resp))
    (hpoll : pollRun scanStartTime scanTimeOut clock pollEvents j fuel =
        some (k, Except.ok op))
    (hdone : op.done = true)
    (hnoerr : op.error = none)
    (hviols : getViolations op = Except.ok viols)
    (hv : v ∈ viols)
    (hblank : (jsFalsyOptStr v.assetId || jsFalsyOptStr v.policyId) = true) :
    ∃ e, scanRun scanStartTime scanTimeOut clock submitEvents pollEvents iacByteLength fuel =
        some (Except.error e)
      ∧ e.statusCode = 500
      ∧ strContains e.message "missing key Attributes" = true
      ∧ strContains e.message "policyID :" = true
      ∧ strContains e.message "assetId :" = true
      ∧ ∀ vs, scanRun scanStartTime scanTimeOut clock submitEvents pollEvents
          iacByteLength fuel ≠ some (Except.ok vs) := by
  obtain ⟨e, he, h5, hc1, hc2, hc3⟩ := checkViolations_error_of_blank viols v hv hblank
  have hval : validatePollOperationResponse op = Except.error e := by
    simp [validatePollOperationResponse, hnoerr, hviols, he]
  have hnl : ¬(SCAN_FILE_MAX_SIZE_BYTES < iacByteLength) := Nat.not_lt.mpr hsize
  have hrun : scanRun scanStartTime scanTimeOut clock submitEvents pollEvents
      iacByteLength fuel =
      some (Except.error ⟨e.statusCode,
        "Failed to scan file due to following error: " ++ e.message⟩) := by
    simp [scanRun, validateIACValidationRequest, hnl, hsubmit, hpoll, hval, scanWrap]
  refine ⟨⟨e.statusCode, "Failed to scan file due to following error: " ++ e.message⟩,
    hrun, h5, strContains_append_right _ _ _ hc1, strContains_append_right _ _ _ hc2,
    strContains_append_right _ _ _ hc3, ?_⟩
  intro vs hvs
  rw [hrun] at hvs
  simp at hvs

theorem scan_fails_on_blank_violation_ids_witness :
    ∃ e, scanRun 0 10 (fun _ => 0)
        (fun _ => HttpEvent.reply (some 200) "" submitOpW)
        (fun _ => HttpEvent.reply (some 200) "" (some blankIdOpW)) 0 3 =
        some (Except.error e)
      ∧ e.statusCode = 500
      ∧ strContains e.message "missing key Attributes" = true := by
  have h := scan_fails_on_blank_violation_ids 0 10 0 3 1 3 (fun _ => 0)
    (fun _ => HttpEvent.reply (some 200) "" submitOpW)
    (fun _ => HttpEvent.reply (some 200) "" (some blankIdOpW))
    submitOpW blankIdOpW
    [⟨none, some "p1", some Severity.high⟩] ⟨none, some "p1", some Severity.high⟩
    (by decide) (by decide) (by decide) rfl rfl (by decide)
    (List.mem_singleton.mpr rfl) (by decide)
  obtain ⟨e, he, h5, hc1, -, -, -⟩ := h
  exact ⟨e, he, h5, hc1⟩

end SCC
